import Mathlib

/-
Verification development for the hypothesis-client repository.

Shallow embedding of:
* `src/annotator/integrations/annotation-editor/color-manager.js`
  (`getRGB`, `ColorManager.makeHexColor`);
* the `CommandManager` class of
  `src/annotator/integrations/annotation-editor/annotation-editor-ui-manager.js`;
* the cross-origin JSON-RPC command server (`startServer` / `preStartServer`);
  its implementation file `src/sidebar/cross-origin-rpc.js` is not part of the
  source snapshot (only its test suite is), so it is modelled from the spec;
* `src/annotator/plugin/cross-frame.coffee` together with spec-modelled
  `Bridge` and `Discovery` (their implementation files are likewise absent).

JS strings are modelled as `List Char`, JS numbers as `Nat`/`Int` with `NaN`
modelled explicitly where it can arise.
-/

/-! ## Color manager (`color-manager.js`) -/

/-- Digit list of `n` in base 16, lowercase, as produced by JS
`Number.prototype.toString(16)` on a non-negative integer.  The first argument
is fuel (structural recursion); `n + 1` units always suffice. -/
def toStringBase16Aux : Nat → Nat → List Char
  | 0, _ => []
  | fuel + 1, n =>
    if n < 16 then [Nat.digitChar n]
    else toStringBase16Aux fuel (n / 16) ++ [Nat.digitChar (n % 16)]

/-- JS `n.toString(16)` for a non-negative integer `n`. -/
def toStringBase16 (n : Nat) : List Char := toStringBase16Aux (n + 1) n

/-- JS `s.padStart(2, "0")`. -/
def padStart2 (cs : List Char) : List Char :=
  List.replicate (2 - cs.length) '0' ++ cs

/-- Entry `n` of the `hexNumbers` array of `color-manager.js`:
`n.toString(16).padStart(2, "0")`.  The source materialises entries
`0 ≤ n < 256`; the JS array read is modelled as a function. -/
def hexNumbers (n : Nat) : List Char := padStart2 (toStringBase16 n)

/-- Value of a hexadecimal digit character, `none` for non-digits
(the characters at which JS `parseInt(·, 16)` stops). -/
def hexDigitVal (c : Char) : Option Nat :=
  if '0' ≤ c ∧ c ≤ '9' then some (c.toNat - 48)
  else if 'a' ≤ c ∧ c ≤ 'f' then some (c.toNat - 87)
  else if 'A' ≤ c ∧ c ≤ 'F' then some (c.toNat - 55)
  else none

/-- JS `parseInt(s, 16)` restricted to the inputs reaching it in
`getRGB` (no sign, no whitespace, no `0x` handling needed for strings sliced
from a `#…` color): parse the longest hex-digit prefix, `none` models `NaN`
(no digit at all). -/
def parseIntHex (cs : List Char) : Option Nat :=
  let ds := cs.takeWhile (fun c => (hexDigitVal c).isSome)
  if ds.isEmpty then none
  else some (ds.foldl (fun a c => 16 * a + ((hexDigitVal c).getD 0)) 0)

/-- Value of a decimal digit character, `none` otherwise. -/
def decDigitVal (c : Char) : Option Nat :=
  if '0' ≤ c ∧ c ≤ '9' then some (c.toNat - 48) else none

/-- Longest decimal-digit prefix of `cs` as a number; `none` models `NaN`. -/
def parseDecDigits (cs : List Char) : Option Nat :=
  let ds := cs.takeWhile (fun c => (decDigitVal c).isSome)
  if ds.isEmpty then none
  else some (ds.foldl (fun a c => 10 * a + ((decDigitVal c).getD 0)) 0)

/-- JS `parseInt(x)` (radix 10) as used on the components of an
`rgb(R, G, B)` string: skip spaces, optional sign, decimal digits;
`none` models `NaN`. -/
def parseIntDec (cs : List Char) : Option Int :=
  let cs2 := cs.dropWhile (fun c => c = ' ')
  match cs2 with
  | '-' :: rest => (parseDecDigits rest).map (fun n => -(n : Int))
  | '+' :: rest => (parseDecDigits rest).map (fun n => (n : Int))
  | _ => (parseDecDigits cs2).map (fun n => (n : Int))

/-- The `getRGB` function of `color-manager.js`.  `some n` models the JS
number `n`, `none` models `NaN` (reachable only through the `rgb(` branch;
in the `#` branch the bitwise operators apply `ToInt32`, which sends `NaN`
to `0`, hence the `getD 0`).  The `console.warn` of the fallback branch is
not tracked. -/
def getRGB (color : List Char) : List (Option Int) :=
  if color.head? = some '#' then
    let colorRGB := (parseIntHex (color.drop 1)).getD 0
    [some (((colorRGB &&& 0xff0000) >>> 16 : Nat) : Int),
     some (((colorRGB &&& 0x00ff00) >>> 8 : Nat) : Int),
     some ((colorRGB &&& 0x0000ff : Nat) : Int)]
  else if color.take 4 = ['r', 'g', 'b', '('] then
    (((color.drop 4).dropLast).splitOn ',').map parseIntDec
  else
    [some 0, some 0, some 0]

/-- The static `ColorManager.makeHexColor(r, g, b)`:
the template string `#${hexNumbers[r]}${hexNumbers[g]}${hexNumbers[b]}`. -/
def ColorManager.makeHexColor (r g b : Nat) : List Char :=
  '#' :: (hexNumbers r ++ hexNumbers g ++ hexNumbers b)

/-! ## CommandManager (`annotation-editor-ui-manager.js`) -/

/-- A JS number used as a command `type`; `nan` models the default `NaN`. -/
inductive CmdType
  | nan
  | num (n : Int)
deriving DecidableEq

/-- JS strict equality `===` on command types: `NaN === x` is `false` for
every `x`, including `NaN` itself. -/
def CmdType.jsEq : CmdType → CmdType → Bool
  | .num a, .num b => a == b
  | _, _ => false

/-- An entry of the `_commands` buffer: the `cmd` and `undo` closures are
modelled as opaque labels (natural numbers), executing one is recorded by
returning its label. -/
structure SavedCommand where
  cmd : Nat
  undo : Nat
  type : CmdType
deriving DecidableEq

/-- State of a `CommandManager` instance: `_commands`, `_maxSize`,
`_position`.  `_position` is a JS number that takes the value `-1`, so it is
modelled as an integer. -/
structure CommandManagerState where
  commands : List SavedCommand
  maxSize : Nat
  position : Int
deriving DecidableEq

/-- The `CommandManager` constructor (`maxSize` defaults to 128 at call
sites using the default). -/
def CommandManager.new (maxSize : Nat) : CommandManagerState :=
  { commands := [], maxSize := maxSize, position := -1 }

/-- Argument object of `CommandManager.add`.  Defaults at the JS call sites
are `type = NaN`, `overwriteIfSameType = false`, `keepUndo = false`. -/
structure AddOptions where
  cmd : Nat
  undo : Nat
  mustExec : Bool
  type : CmdType
  overwriteIfSameType : Bool
  keepUndo : Bool
deriving DecidableEq

/-- Lines 98–108 of `add`: `next = _position + 1`; if `next === _maxSize`
then `splice(0, 1)` (first element removed, `_position` unchanged), else
`_position = next` and, when `next < _commands.length`, `splice(next)`
(truncation); finally `push(save)`. -/
def CommandManager.addPush (s : CommandManagerState) (save : SavedCommand) :
    CommandManagerState :=
  let next := s.position + 1
  if next = (s.maxSize : Int) then
    { s with commands := s.commands.drop 1 ++ [save] }
  else
    let cmds := if next < (s.commands.length : Int)
                then s.commands.take next.toNat else s.commands
    { s with position := next, commands := cmds ++ [save] }

/-- `CommandManager.add`.  Returns the new state and the list of executed
closure labels (`cmd` is executed when `mustExec`).  The JS guard
`overwriteIfSameType && this._commands[this._position].type === type`
short-circuits; the read of `_commands[_position]` is modelled by `get?`
(its `none` case is unreachable from the initial state, as proved by the
cursor invariant below, and is mapped to the non-overwrite branch). -/
def CommandManager.add (s : CommandManagerState) (o : AddOptions) :
    CommandManagerState × List Nat :=
  let executed := if o.mustExec then [o.cmd] else []
  let save : SavedCommand := { cmd := o.cmd, undo := o.undo, type := o.type }
  if s.position = -1 then
    ({ s with position := 0, commands := s.commands ++ [save] }, executed)
  else
    match s.commands.get? s.position.toNat with
    | some cur =>
      if o.overwriteIfSameType && cur.type.jsEq o.type then
        let save2 := if o.keepUndo then { save with undo := cur.undo } else save
        ({ s with commands := s.commands.set s.position.toNat save2 }, executed)
      else
        (CommandManager.addPush s save, executed)
    | none =>
      (CommandManager.addPush s save, executed)

/-- `CommandManager.undo`: no-op at `_position === -1`, otherwise run the
stored `undo` closure at `_position` and decrement `_position`. -/
def CommandManager.undo (s : CommandManagerState) : CommandManagerState × List Nat :=
  if s.position = -1 then (s, [])
  else
    ({ s with position := s.position - 1 },
      match s.commands.get? s.position.toNat with
      | some c => [c.undo]
      | none => [])

/-- `CommandManager.redo`: when `_position < _commands.length - 1`,
increment `_position` and run the stored `cmd` closure there. -/
def CommandManager.redo (s : CommandManagerState) : CommandManagerState × List Nat :=
  if s.position < (s.commands.length : Int) - 1 then
    ({ s with position := s.position + 1 },
      match s.commands.get? (s.position + 1).toNat with
      | some c => [c.cmd]
      | none => [])
  else (s, [])

/-- `CommandManager.hasSomethingToUndo`: `_position !== -1`. -/
def CommandManager.hasSomethingToUndo (s : CommandManagerState) : Bool :=
  s.position != -1

/-- `CommandManager.hasSomethingToRedo`: `_position < _commands.length - 1`. -/
def CommandManager.hasSomethingToRedo (s : CommandManagerState) : Bool :=
  decide (s.position < (s.commands.length : Int) - 1)

/-- An operation applied to a `CommandManager`. -/
inductive CommandOp
  | addOp (o : AddOptions)
  | undoOp
  | redoOp

/-- State transition of one operation (the executed-labels output is
dropped). -/
def CommandManager.step (s : CommandManagerState) : CommandOp → CommandManagerState
  | .addOp o => (CommandManager.add s o).1
  | .undoOp => (CommandManager.undo s).1
  | .redoOp => (CommandManager.redo s).1

/-- Run a sequence of operations on a freshly constructed manager
(default `maxSize = 128`). -/
def CommandManager.run (ops : List CommandOp) : CommandManagerState :=
  ops.foldl CommandManager.step (CommandManager.new 128)

/-- The cursor invariant: `-1 ≤ _position ≤ _commands.length - 1`. -/
def CommandManager.CursorInv (s : CommandManagerState) : Prop :=
  -1 ≤ s.position ∧ s.position ≤ (s.commands.length : Int) - 1

/-! ## Cross-origin JSON-RPC command server (`cross-origin-rpc.js`)

Modelled from the spec: the implementation file `src/sidebar/cross-origin-rpc.js`
is not in the source snapshot; only its test suite
(`src/sidebar/test/cross-origin-rpc-test.js`) is.  The definitions below
follow §4.1, §6 and §7 of the spec (validation pipeline order, pre-start
buffering lifecycle, response envelopes) and are consistent with every
behaviour the test suite pins down. -/

/-- A guest-page focus-mode argument: the object carried in `params[0]` of a
`changeFocusModeUser` request (§6 wire protocol). -/
structure FocusUser where
  username : Option String
  displayName : Option String
  groups : Option (List String)
deriving DecidableEq

/-- Modelled from the spec: the `data` payload of a message event.  `null`
stands for any payload that is not an object (the shape check rejects it);
an object carries the optional `jsonrpc`, `method`, `id` and `params`
members.  `method = some none` models an explicit `method: null`. -/
inductive RpcData
  | null
  | obj (jsonrpc : Option String) (method : Option (Option String))
      (id : Option Int) (params : Option (List FocusUser))
deriving DecidableEq

/-- The `id` member of a payload (`none` when absent or when the payload is
not an object). -/
def RpcData.reqId : RpcData → Option Int
  | .null => none
  | .obj _ _ id _ => id

/-- A message event as delivered to the server's listener: `data`, `origin`,
and `source` (the sender's message-posting capability, modelled as an opaque
frame identifier). -/
structure MessageEvent where
  data : RpcData
  origin : String
  source : Nat
deriving DecidableEq

/-- Sidebar settings consumed by the server: `rpcAllowedOrigins` may be
absent entirely (`none`), which allows nothing, like the empty list. -/
structure Settings where
  rpcAllowedOrigins : Option (List String)
deriving DecidableEq

/-- A group as returned by `store.allGroups()`; only its `id` is consumed (named `SidebarGroup`: `Group` is taken by Mathlib). -/
structure SidebarGroup where
  id : String
deriving DecidableEq

/-- The slice of the sidebar store the server reads. -/
structure Store where
  allGroups : List SidebarGroup
deriving DecidableEq

/-- A JSON-RPC response envelope: success `{jsonrpc, id, result}` or error
`{jsonrpc, id, error: {code, message}}`. -/
inductive RpcResponse
  | success (jsonrpc : String) (id : Option Int) (result : String)
  | error (jsonrpc : String) (id : Option Int) (code : Int) (message : String)
deriving DecidableEq

/-- The `id` member of a response envelope. -/
def RpcResponse.respId : RpcResponse → Option Int
  | .success _ id _ => id
  | .error _ id _ _ => id

/-- An observable side effect of handling one message event. -/
inductive Effect
  | post (target : Nat) (targetOrigin : String) (response : RpcResponse)
  | warn (message : String)
  | storeChangeFocusModeUser (arg : Option FocusUser)
  | storeFilterGroups (ids : List String)
  | consoleError (message : String)
deriving DecidableEq

/-- Modelled from the spec: the warning logged for a request from an origin
outside the allow-list (§4.1 step 2; the test matches it against
`/Ignoring JSON-RPC request from non-whitelisted origin/`). -/
def nonWhitelistedWarning : String :=
  "Ignoring JSON-RPC request from non-whitelisted origin"

/-- Diagnostic of the `changeFocusModeUser` handler when a non-empty group
id list normalizes to the empty list (§4.1). -/
def noMatchingGroupsError : String :=
  "No matching groups found in list of filtered group IDs"

/-- Modelled from the spec: the group-id-normalization collaborator
(`normalizeGroupIds` of `sidebar/helpers/groups`, also absent from the
snapshot): "intersect/validate the requested ids against the known ids"
(§4.1) — the requested ids that are known, in request order. -/
def normalizeGroupIds (requested known : List String) : List String :=
  requested.filter (fun i => known.contains i)

/-- Modelled from the spec: the `changeFocusModeUser(store, arg)` handler
(§4.1): always forward `arg` (possibly `undefined`) to
`store.changeFocusModeUser`; when `arg` has a `groups` member (even an empty
list), normalize it against the ids of `store.allGroups()`, log the
no-matching-groups diagnostic when a non-empty request normalizes to nothing,
and apply the normalized filter via `store.filterGroups`; when `groups` is
absent, leave group-filter state untouched. -/
def changeFocusModeUserEffects (store : Store) (arg : Option FocusUser) :
    List Effect :=
  Effect.storeChangeFocusModeUser arg ::
    match arg.bind FocusUser.groups with
    | none => []
    | some gids =>
      let known := store.allGroups.map SidebarGroup.id
      let matched := normalizeGroupIds gids known
      (if gids ≠ [] ∧ matched = []
       then [Effect.consoleError noMatchingGroupsError] else [])
        ++ [Effect.storeFilterGroups matched]

/-- The method registry (§3): a single entry, `changeFocusModeUser`. -/
def registeredMethods : List String := ["changeFocusModeUser"]

/-- Modelled from the spec: the shape check (§4.1 step 1) — the payload must
be a non-null object with `jsonrpc === "2.0"`. -/
def shapeOk : RpcData → Bool
  | .null => false
  | .obj jsonrpc _ _ _ => jsonrpc == some "2.0"

/-- Modelled from the spec: the origin check (§4.1 step 2) — membership in
`settings.rpcAllowedOrigins`, a missing or empty allow-list allowing
nothing. -/
def originAllowed (settings : Settings) (origin : String) : Bool :=
  (settings.rpcAllowedOrigins.getD []).contains origin

/-- Modelled from the spec: the full validation pipeline applied to one
message event (§4.1), in this exact order: shape check (silent drop),
origin check (warning, silent drop), method dispatch (`-32601` error
envelope for a missing/null/unregistered method), handler invocation with
`params?.[0]` followed by a `result: "ok"` envelope.  Every response is
posted to `event.source` at target origin `event.origin`. -/
def handleMessage (store : Store) (settings : Settings) (e : MessageEvent) :
    List Effect :=
  match e.data with
  | .null => []
  | .obj jsonrpc method id params =>
    if jsonrpc == some "2.0" then
      if originAllowed settings e.origin then
        match method with
        | some (some m) =>
          if registeredMethods.contains m then
            changeFocusModeUserEffects store (params.bind List.head?)
              ++ [Effect.post e.source e.origin (.success "2.0" id "ok")]
          else
            [Effect.post e.source e.origin
              (.error "2.0" id (-32601) "Method not found")]
        | _ =>
          [Effect.post e.source e.origin
            (.error "2.0" id (-32601) "Method not found")]
      else
        [Effect.warn nonWhitelistedWarning]
    else []

/-- Modelled from the spec: the server lifecycle (§4.1, §9) — `idle` before
any listener is installed, `prestart` while the provisional buffering
listener is installed, `live` once `startServer` has run. -/
inductive ServerPhase
  | idle
  | prestart
  | live
deriving DecidableEq

/-- Listener state: the lifecycle phase and the ordered queue of buffered
pre-start events. -/
structure ServerState where
  phase : ServerPhase
  queue : List MessageEvent
deriving DecidableEq

/-- State before any of `preStartServer` / `startServer` has run. -/
def initialServerState : ServerState := { phase := .idle, queue := [] }

/-- Modelled from the spec: `preStartServer(hostWindow)` installs the
provisional listener with an empty queue. -/
def preStartServer (_s : ServerState) : ServerState :=
  { phase := .prestart, queue := [] }

/-- One message event arriving on `hostWindow`: with no listener installed
nothing happens; the provisional listener pushes the raw event onto the
queue with no side effects and no response; the live listener runs the full
validation pipeline. -/
def receiveMessage (store : Store) (settings : Settings) (s : ServerState)
    (e : MessageEvent) : ServerState × List Effect :=
  match s.phase with
  | .idle => (s, [])
  | .prestart => ({ s with queue := s.queue ++ [e] }, [])
  | .live => (s, handleMessage store settings e)

/-- Modelled from the spec: `startServer(store, settings, hostWindow)` —
stop the provisional listener, replay every queued event through the
validation pipeline in original arrival order, then install the live
listener. -/
def startServer (store : Store) (settings : Settings) (s : ServerState) :
    ServerState × List Effect :=
  ({ phase := .live, queue := [] },
   (s.queue.map (handleMessage store settings)).flatten)

/-- Buffer a list of events through the provisional listener, starting from
`preStartServer` on the initial state. -/
def bufferEvents (store : Store) (settings : Settings)
    (events : List MessageEvent) : ServerState :=
  events.foldl (fun s e => (receiveMessage store settings s e).1)
    (preStartServer initialServerState)

/-- The response-posting effects of an effect list, in order. -/
def postedResponses (fx : List Effect) : List (Nat × String × RpcResponse) :=
  fx.filterMap fun eff =>
    match eff with
    | .post t o r => some (t, o, r)
    | _ => none

/-! ## CrossFrame plugin (`cross-frame.coffee`) with Bridge and Discovery

`cross-frame.coffee` is in the snapshot; the `Bridge` and `Discovery`
classes it uses (`shared/bridge`, `shared/discovery`) are not and are
modelled from the spec (§4.2, §4.3). -/

/-- A channel of the registry (§3): remote window reference (opaque id),
origin, handshake token, connected flag. -/
structure Channel where
  remoteWindow : Nat
  origin : String
  token : String
  connected : Bool
deriving DecidableEq

/-- Modelled from the spec: the state of a `Bridge` — its channel list and
whether `destroy()` has run. -/
structure BridgeState where
  channels : List Channel
  destroyed : Bool
deriving DecidableEq

/-- Closing one channel: it stays known but no longer connected. -/
def closeChannel (c : Channel) : Channel := { c with connected := false }

/-- Modelled from the spec: `Bridge.destroy()` — "closes every channel and
releases resources; no further calls fire after destruction; safe to invoke
multiple times" (§4.3). -/
def Bridge.destroy (b : BridgeState) : BridgeState :=
  { channels := b.channels.map closeChannel, destroyed := true }

/-- Modelled from the spec: `Bridge.call` delivers to every connected
channel and to nothing after destruction ("no further calls fire after
destruction"). -/
def Bridge.call (b : BridgeState) (method : String) : List (Nat × String) :=
  if b.destroyed then []
  else (b.channels.filter Channel.connected).map
    (fun c => (c.remoteWindow, method))

/-- Modelled from the spec: the state of a `Discovery` instance — whether
its repeating probe is broadcasting and how many message listeners it has
installed.  Discovery owns no channels (those live in the Bridge). -/
structure DiscoveryState where
  broadcasting : Bool
  listeners : Nat
deriving DecidableEq

/-- Modelled from the spec: `Discovery.stopDiscovery()` — "stop broadcasting
and release all listeners; it must not destroy already-established channels
(that is Bridge's responsibility)" (§4.2). -/
def Discovery.stopDiscovery (_d : DiscoveryState) : DiscoveryState :=
  { broadcasting := false, listeners := 0 }

/-- State of the `CrossFrame` plugin: its Bridge, its Discovery, and the
base `Plugin` destroyed flag. -/
structure CrossFrameState where
  bridge : BridgeState
  discovery : DiscoveryState
  pluginDestroyed : Bool
deriving DecidableEq

/-- `CrossFrame.destroy` from `cross-frame.coffee` lines 42–46:
`Plugin::destroy.apply(this)`, then `bridge.destroy()`, then
`discovery.stopDiscovery()`. -/
def CrossFrame.destroy (s : CrossFrameState) : CrossFrameState :=
  { bridge := Bridge.destroy s.bridge,
    discovery := Discovery.stopDiscovery s.discovery,
    pluginDestroyed := true }

/-- Stopping discovery alone (no call to `Bridge.destroy`), as a transition
on the combined plugin state: only the discovery component changes. -/
def CrossFrame.stopDiscoveryOnly (s : CrossFrameState) : CrossFrameState :=
  { s with discovery := Discovery.stopDiscovery s.discovery }

/-- A concrete focus-mode argument requesting group "3". -/
def fuGroups3 : FocusUser :=
  { username := none, displayName := none, groups := some ["3"] }

/-- A concrete store knowing groups "1" and "2". -/
def store12 : Store := { allGroups := [{ id := "1" }, { id := "2" }] }

/-! ## Theorems -/

theorem CommandManager.cursorInv_addPush (s : CommandManagerState)
    (save : SavedCommand) (h1 : -1 ≤ s.position)
    (h2 : s.position ≤ (s.commands.length : Int) - 1) :
    CommandManager.CursorInv (CommandManager.addPush s save) := by
  simp only [CommandManager.addPush, CommandManager.CursorInv]
  split
  · rename_i hmax
    dsimp only
    simp only [List.length_append, List.length_drop, List.length_cons,
      List.length_nil]
    omega
  · rename_i hmax
    split
    · rename_i hlt
      dsimp only
      simp only [List.length_append, List.length_take, List.length_cons,
        List.length_nil]
      omega
    · rename_i hlt
      dsimp only
      simp only [List.length_append, List.length_cons, List.length_nil]
      omega

theorem CommandManager.cursorInv_step (s : CommandManagerState) (op : CommandOp)
    (h : CommandManager.CursorInv s) :
    CommandManager.CursorInv (CommandManager.step s op) := by
  obtain ⟨h1, h2⟩ := h
  cases op with
  | addOp o =>
    simp only [CommandManager.step, CommandManager.add, CommandManager.CursorInv]
    split
    · rename_i hneg
      dsimp only
      simp only [List.length_append, List.length_cons, List.length_nil]
      omega
    · rename_i hneg
      split
      · rename_i cur hget
        split
        · dsimp only
          simp only [List.length_set]
          omega
        · exact CommandManager.cursorInv_addPush s _ h1 h2
      · exact CommandManager.cursorInv_addPush s _ h1 h2
  | undoOp =>
    simp only [CommandManager.step, CommandManager.undo, CommandManager.CursorInv]
    split
    · exact ⟨h1, h2⟩
    · dsimp only
      omega
  | redoOp =>
    simp only [CommandManager.step, CommandManager.redo, CommandManager.CursorInv]
    split
    · rename_i hlt
      dsimp only
      omega
    · exact ⟨h1, h2⟩

theorem CommandManager.cursorInv_foldl (l : List CommandOp)
    (s : CommandManagerState) (hs : CommandManager.CursorInv s) :
    CommandManager.CursorInv (l.foldl CommandManager.step s) := by
  induction l generalizing s with
  | nil => exact hs
  | cons op l ih => exact ih _ (CommandManager.cursorInv_step s op hs)

theorem CommandManager.undo_noop_iff (s : CommandManagerState) :
    CommandManager.undo s = (s, []) ↔ s.position = -1 := by
  unfold CommandManager.undo
  constructor
  · intro h
    by_contra hne
    rw [if_neg hne] at h
    have hpos := congrArg (fun p => p.1.position) h
    simp only at hpos
    omega
  · intro h; rw [if_pos h]

theorem CommandManager.redo_noop_iff (s : CommandManagerState) :
    CommandManager.redo s = (s, []) ↔
      ¬ s.position < (s.commands.length : Int) - 1 := by
  unfold CommandManager.redo
  constructor
  · intro h
    intro hne
    rw [if_pos hne] at h
    have hpos := congrArg (fun p => p.1.position) h
    simp only at hpos
    omega
  · intro h; rw [if_neg h]

/-- C10: for every sequence of add, undo and redo operations on a freshly
constructed `CommandManager`, the cursor invariant
`-1 ≤ _position ≤ _commands.length - 1` is preserved; `undo()` is a no-op
(state unchanged, no stored closure executed) exactly when
`hasSomethingToUndo()` is false, i.e. `_position = -1`; and `redo()` is a
no-op exactly when `hasSomethingToRedo()` is false, which under the
invariant means `_position = _commands.length - 1`. -/
theorem commandManager_cursor_invariant_and_noop (ops : List CommandOp) :
    CommandManager.CursorInv (CommandManager.run ops) ∧
    (CommandManager.undo (CommandManager.run ops) = (CommandManager.run ops, []) ↔
      CommandManager.hasSomethingToUndo (CommandManager.run ops) = false) ∧
    (CommandManager.hasSomethingToUndo (CommandManager.run ops) = false ↔
      (CommandManager.run ops).position = -1) ∧
    (CommandManager.redo (CommandManager.run ops) = (CommandManager.run ops, []) ↔
      CommandManager.hasSomethingToRedo (CommandManager.run ops) = false) ∧
    (CommandManager.hasSomethingToRedo (CommandManager.run ops) = false ↔
      (CommandManager.run ops).position =
        ((CommandManager.run ops).commands.length : Int) - 1) := by
  have hinv : CommandManager.CursorInv (CommandManager.run ops) := by
    apply CommandManager.cursorInv_foldl
    exact ⟨by simp [CommandManager.new], by simp [CommandManager.new]⟩
  obtain ⟨h1, h2⟩ := hinv
  refine ⟨⟨h1, h2⟩, ?_, ?_, ?_, ?_⟩
  · rw [CommandManager.undo_noop_iff]
    simp [CommandManager.hasSomethingToUndo]
  · simp [CommandManager.hasSomethingToUndo]
  · rw [CommandManager.redo_noop_iff]
    simp [CommandManager.hasSomethingToRedo]
  · simp only [CommandManager.hasSomethingToRedo, decide_eq_false_iff_not]
    omega

set_option maxHeartbeats 1000000 in
set_option maxRecDepth 10000 in
theorem hexNumbers_spec : ∀ n, n < 256 →
    (hexNumbers n).length = 2 ∧
    (hexNumbers n).all (fun c => (hexDigitVal c).isSome) = true ∧
    (hexNumbers n).foldl (fun a c => 16 * a + ((hexDigitVal c).getD 0)) 0 = n := by
  decide

theorem hexFoldl_from (t : List Char) (a : Nat) :
    t.foldl (fun a c => 16 * a + ((hexDigitVal c).getD 0)) a
      = a * 16 ^ t.length
          + t.foldl (fun a c => 16 * a + ((hexDigitVal c).getD 0)) 0 := by
  induction t generalizing a with
  | nil => simp
  | cons c t ih =>
    simp only [List.foldl_cons, List.length_cons]
    rw [ih (16 * a + ((hexDigitVal c).getD 0)), ih (16 * 0 + ((hexDigitVal c).getD 0))]
    ring

theorem takeWhile_all_eq {α : Type} (p : α → Bool) (l : List α)
    (h : ∀ a ∈ l, p a) : l.takeWhile p = l := by
  conv_lhs => rw [← List.append_nil l]
  rw [List.takeWhile_append_of_pos h]
  simp

theorem parseIntHex_concat (r g b : Nat) (hr : r < 256) (hg : g < 256)
    (hb : b < 256) :
    parseIntHex (hexNumbers r ++ hexNumbers g ++ hexNumbers b)
      = some (65536 * r + 256 * g + b) := by
  obtain ⟨hlr, har, hfr⟩ := hexNumbers_spec r hr
  obtain ⟨hlg, hag, hfg⟩ := hexNumbers_spec g hg
  obtain ⟨hlb, hab, hfb⟩ := hexNumbers_spec b hb
  have hall : ∀ c ∈ hexNumbers r ++ hexNumbers g ++ hexNumbers b,
      (hexDigitVal c).isSome = true := by
    intro c hc
    rcases List.mem_append.1 hc with hc2 | hc3
    · rcases List.mem_append.1 hc2 with hc4 | hc5
      · exact List.all_eq_true.1 har c hc4
      · exact List.all_eq_true.1 hag c hc5
    · exact List.all_eq_true.1 hab c hc3
  unfold parseIntHex
  rw [takeWhile_all_eq _ _ hall]
  have hne : (hexNumbers r ++ hexNumbers g ++ hexNumbers b).isEmpty = false := by
    have : (hexNumbers r ++ hexNumbers g ++ hexNumbers b).length = 6 := by
      simp [hlr, hlg, hlb]
    cases hxs : hexNumbers r ++ hexNumbers g ++ hexNumbers b with
    | nil => rw [hxs] at this; simp at this
    | cons x xs => rfl
  simp only [hne, Bool.false_eq_true, if_false, List.foldl_append]
  rw [hfr, hexFoldl_from (hexNumbers g) r, hfg, hlg,
    hexFoldl_from (hexNumbers b) (r * 16 ^ 2 + g), hfb, hlb]
  congr 1
  ring

theorem natShiftRightLand (x y n : Nat) :
    (x &&& y) >>> n = (x >>> n) &&& (y >>> n) := by
  apply Nat.eq_of_testBit_eq
  intro i
  simp [Nat.testBit_land]

theorem rgbBytes (r g b : Nat) (hr : r < 256) (hg : g < 256) (hb : b < 256) :
    ((65536 * r + 256 * g + b) &&& 0xff0000) >>> 16 = r ∧
    ((65536 * r + 256 * g + b) &&& 0x00ff00) >>> 8 = g ∧
    ((65536 * r + 256 * g + b) &&& 0x0000ff) = b := by
  have e1 : (0xff0000 : Nat) >>> 16 = 255 := by decide
  have e2 : (0x00ff00 : Nat) >>> 8 = 255 := by decide
  have h255 : (255 : Nat) = 2 ^ 8 - 1 := by norm_num
  have h65536 : (2 : Nat) ^ 16 = 65536 := by norm_num
  have h256' : (2 : Nat) ^ 8 = 256 := by norm_num
  refine ⟨?_, ?_, ?_⟩
  · rw [natShiftRightLand, e1, h255, Nat.and_pow_two_sub_one_eq_mod,
      Nat.shiftRight_eq_div_pow, h65536, h256']
    omega
  · rw [natShiftRightLand, e2, h255, Nat.and_pow_two_sub_one_eq_mod,
      Nat.shiftRight_eq_div_pow, h256']
    omega
  · have : (0x0000ff : Nat) = 2 ^ 8 - 1 := by norm_num
    rw [this, Nat.and_pow_two_sub_one_eq_mod, h256']
    omega

/-- C9: for every triple of integers `r, g, b` in `0..255`,
`getRGB (ColorManager.makeHexColor r g b)` returns exactly `[r, g, b]`
(hex encoding followed by parsing is the identity on byte-valued RGB
triples). -/
theorem getRGB_makeHexColor (r g b : Nat) (hr : r < 256) (hg : g < 256)
    (hb : b < 256) :
    getRGB (ColorManager.makeHexColor r g b)
      = [some (r : Int), some (g : Int), some (b : Int)] := by
  unfold getRGB ColorManager.makeHexColor
  rw [if_pos (show ('#' :: (hexNumbers r ++ hexNumbers g ++ hexNumbers b)).head?
        = some '#' from rfl)]
  simp only [List.drop_succ_cons, List.drop_zero]
  rw [parseIntHex_concat r g b hr hg hb]
  simp only [Option.getD_some]
  obtain ⟨e1, e2, e3⟩ := rgbBytes r g b hr hg hb
  rw [e1, e2, e3]

/-- Witness for C9 at the concrete triple (17, 34, 51), i.e. `#112233`. -/
theorem getRGB_makeHexColor_witness :
    (17 : Nat) < 256 ∧ (34 : Nat) < 256 ∧ (51 : Nat) < 256 ∧
      getRGB (ColorManager.makeHexColor 17 34 51)
        = [some (17 : Int), some (34 : Int), some (51 : Int)] :=
  ⟨by decide, by decide, by decide,
    getRGB_makeHexColor 17 34 51 (by decide) (by decide) (by decide)⟩

theorem bufferEvents_state (store : Store) (settings : Settings)
    (events : List MessageEvent) (q : List MessageEvent) :
    events.foldl (fun s e => (receiveMessage store settings s e).1)
        { phase := ServerPhase.prestart, queue := q }
      = { phase := ServerPhase.prestart, queue := q ++ events } := by
  induction events generalizing q with
  | nil => simp
  | cons e es ih =>
    simp only [List.foldl_cons]
    have hstep : (receiveMessage store settings
        { phase := ServerPhase.prestart, queue := q } e).1
        = { phase := ServerPhase.prestart, queue := q ++ [e] } := rfl
    rw [hstep, ih]
    simp

/-- C1: for every sequence of message events received after
`preStartServer(hostWindow)` and before `startServer(store, settings,
hostWindow)`, the provisional listener has buffered exactly these events in
arrival order; `startServer` replays every one of them through
`handleMessage` (the full validation pipeline) in original arrival order —
in particular the answers it posts are the per-event answers concatenated
in that order — and installs the live listener: the server goes `live`
with an empty queue and every subsequent event is handled by the
validation pipeline directly. -/
theorem preStart_flush_in_order (store : Store) (settings : Settings)
    (events : List MessageEvent) :
    (bufferEvents store settings events).phase = ServerPhase.prestart ∧
    (bufferEvents store settings events).queue = events ∧
    (startServer store settings (bufferEvents store settings events)).2
      = (events.map (handleMessage store settings)).flatten ∧
    postedResponses
        (startServer store settings (bufferEvents store settings events)).2
      = (events.map
          (fun e => postedResponses (handleMessage store settings e))).flatten ∧
    (startServer store settings (bufferEvents store settings events)).1
      = { phase := ServerPhase.live, queue := [] } ∧
    (∀ e, receiveMessage store settings
          (startServer store settings (bufferEvents store settings events)).1 e
        = ((startServer store settings (bufferEvents store settings events)).1,
            handleMessage store settings e)) := by
  have hbuf : bufferEvents store settings events
      = { phase := ServerPhase.prestart, queue := events } := by
    unfold bufferEvents preStartServer
    rw [bufferEvents_state]
    simp
  refine ⟨by rw [hbuf], by rw [hbuf], by rw [hbuf]; rfl, ?_, by rw [hbuf]; rfl, ?_⟩
  · rw [hbuf]
    unfold startServer postedResponses
    simp only [List.filterMap_flatten, List.map_map]
    rfl
  · intro e
    rw [hbuf]
    rfl

/-- C2: for every message event whose payload fails the shape check (it is
not a non-null object with `jsonrpc === "2.0"`), the server produces no
effect at all — no response, no warning, no store call — whatever the
event's origin; in particular the origin check never runs on it. -/
theorem malformed_message_ignored (store : Store) (settings : Settings)
    (e : MessageEvent) (h : shapeOk e.data = false) :
    handleMessage store settings e = [] := by
  cases hd : e.data with
  | null => simp [handleMessage, hd]
  | obj jsonrpc method id params =>
    rw [hd] at h
    simp only [shapeOk, beq_iff_eq] at h
    simp [handleMessage, hd, h]

/-- Witness for C2: the payload `{jsonrpc: "1.0"}` from an arbitrary origin
produces no effects. -/
theorem malformed_message_ignored_witness :
    shapeOk (RpcData.obj (some "1.0") none none none) = false ∧
      handleMessage { allGroups := [] }
        { rpcAllowedOrigins := some ["https://allowed1.com"] }
        { data := RpcData.obj (some "1.0") none none none,
          origin := "https://allowed1.com", source := 0 } = [] :=
  ⟨by decide,
    malformed_message_ignored _ _ _ (by decide)⟩

/-- C3: for every well-shaped JSON-RPC request whose origin is not in the
allow-list (including when the allow-list is missing or empty, which allows
nothing), the server posts no response and logs exactly the warning
"Ignoring JSON-RPC request from non-whitelisted origin"; and an event
buffered before `startServer` produces that same warning once the queue is
flushed. -/
theorem nonWhitelisted_origin_warn (store : Store) (settings : Settings)
    (e : MessageEvent) (h1 : shapeOk e.data = true)
    (h2 : originAllowed settings e.origin = false) :
    handleMessage store settings e = [Effect.warn nonWhitelistedWarning] ∧
    (∀ pre post : List MessageEvent,
      Effect.warn nonWhitelistedWarning ∈
        (startServer store settings
          (bufferEvents store settings (pre ++ e :: post))).2) := by
  have hmain : handleMessage store settings e
      = [Effect.warn nonWhitelistedWarning] := by
    cases hd : e.data with
    | null => rw [hd] at h1; simp [shapeOk] at h1
    | obj jsonrpc method id params =>
      rw [hd] at h1
      simp only [shapeOk, beq_iff_eq] at h1
      simp [handleMessage, hd, h1, h2]
  refine ⟨hmain, ?_⟩
  intro pre post
  have hbuf : bufferEvents store settings (pre ++ e :: post)
      = { phase := ServerPhase.prestart, queue := pre ++ e :: post } := by
    unfold bufferEvents preStartServer
    rw [bufferEvents_state]
    simp
  rw [hbuf]
  unfold startServer
  apply List.mem_flatten_of_mem (l := handleMessage store settings e)
  · exact List.mem_map_of_mem _ (by simp)
  · rw [hmain]; simp

/-- Witness for C3: a well-shaped request from `https://notallowed.com`
against the allow-list `["https://allowed1.com"]` yields exactly the
warning. -/
theorem nonWhitelisted_origin_warn_witness :
    shapeOk (RpcData.obj (some "2.0") (some (some "changeFocusModeUser"))
        (some 42) none) = true ∧
    originAllowed { rpcAllowedOrigins := some ["https://allowed1.com"] }
        "https://notallowed.com" = false ∧
    handleMessage { allGroups := [] }
        { rpcAllowedOrigins := some ["https://allowed1.com"] }
        { data := RpcData.obj (some "2.0")
            (some (some "changeFocusModeUser")) (some 42) none,
          origin := "https://notallowed.com", source := 0 }
      = [Effect.warn nonWhitelistedWarning] :=
  ⟨by decide, by decide,
    (nonWhitelisted_origin_warn _ _ _ (by decide) (by decide)).1⟩

/-- C4: for every well-shaped request from an allowed origin whose `method`
is missing, `null`, or not in the method registry, the server's only effect
is posting `{jsonrpc: "2.0", id: <request id>, error: {code: -32601,
message: "Method not found"}}` back to the sender — in particular no
handler (no store operation) runs. -/
theorem unknown_method_error (store : Store) (settings : Settings)
    (e : MessageEvent) (jsonrpc : Option String)
    (method : Option (Option String)) (id : Option Int)
    (params : Option (List FocusUser))
    (hd : e.data = RpcData.obj jsonrpc method id params)
    (hj : jsonrpc = some "2.0")
    (ha : originAllowed settings e.origin = true)
    (hm : ∀ m, method = some (some m) → registeredMethods.contains m = false) :
    handleMessage store settings e
      = [Effect.post e.source e.origin
          (RpcResponse.error "2.0" id (-32601) "Method not found")] := by
  subst hj
  cases method with
  | none => simp [handleMessage, hd, ha]
  | some mopt =>
    cases mopt with
    | none => simp [handleMessage, hd, ha]
    | some m =>
      have hm' := hm m rfl
      simp [handleMessage, hd, ha, hm']
      intro hmem
      exact absurd hmem (by simpa using hm')

/-- Witness for C4: the request `{jsonrpc: "2.0", id: 42}` (no method) from
an allowed origin is answered with the −32601 error envelope. -/
theorem unknown_method_error_witness :
    originAllowed { rpcAllowedOrigins := some ["https://allowed1.com"] }
        "https://allowed1.com" = true ∧
    handleMessage { allGroups := [] }
        { rpcAllowedOrigins := some ["https://allowed1.com"] }
        { data := RpcData.obj (some "2.0") none (some 42) none,
          origin := "https://allowed1.com", source := 7 }
      = [Effect.post 7 "https://allowed1.com"
          (RpcResponse.error "2.0" (some 42) (-32601) "Method not found")] :=
  ⟨by decide,
    unknown_method_error _ _ _ _ _ _ _ rfl rfl (by decide)
      (fun m hm => by simp at hm)⟩

/-- C5: for every well-shaped request from an allowed origin with method
`"changeFocusModeUser"`, the server runs the handler — whose first effect
is invoking the store's `changeFocusModeUser` with `params?.[0]`
(`undefined`, i.e. `none`, when no `params` array was supplied) — and then
posts `{jsonrpc: "2.0", id: <request id>, result: "ok"}` to the sender. -/
theorem changeFocusModeUser_dispatch (store : Store) (settings : Settings)
    (e : MessageEvent) (jsonrpc : Option String) (id : Option Int)
    (params : Option (List FocusUser))
    (hd : e.data = RpcData.obj jsonrpc
        (some (some "changeFocusModeUser")) id params)
    (hj : jsonrpc = some "2.0")
    (ha : originAllowed settings e.origin = true) :
    handleMessage store settings e
      = changeFocusModeUserEffects store (params.bind List.head?)
          ++ [Effect.post e.source e.origin
                (RpcResponse.success "2.0" id "ok")] ∧
    (changeFocusModeUserEffects store (params.bind List.head?)).head?
      = some (Effect.storeChangeFocusModeUser (params.bind List.head?)) ∧
    (params = none → params.bind List.head? = none) := by
  subst hj
  refine ⟨?_, rfl, ?_⟩
  · simp [handleMessage, hd, ha, registeredMethods]
  · intro h; subst h; rfl

/-- Witness for C5: `{jsonrpc: "2.0", method: "changeFocusModeUser",
id: 42}` with no params, from an allowed origin. -/
theorem changeFocusModeUser_dispatch_witness :
    originAllowed { rpcAllowedOrigins := some ["https://allowed1.com"] }
        "https://allowed1.com" = true ∧
    handleMessage { allGroups := [] }
        { rpcAllowedOrigins := some ["https://allowed1.com"] }
        { data := RpcData.obj (some "2.0")
            (some (some "changeFocusModeUser")) (some 42) none,
          origin := "https://allowed1.com", source := 3 }
      = [Effect.storeChangeFocusModeUser none,
         Effect.post 3 "https://allowed1.com"
           (RpcResponse.success "2.0" (some 42) "ok")] :=
  ⟨by decide,
    by
      have h := (changeFocusModeUser_dispatch { allGroups := [] }
        { rpcAllowedOrigins := some ["https://allowed1.com"] }
        { data := RpcData.obj (some "2.0")
            (some (some "changeFocusModeUser")) (some 42) none,
          origin := "https://allowed1.com", source := 3 }
        (some "2.0") (some 42) none rfl rfl (by decide)).1
      rw [h]
      rfl⟩

/-- C6: behaviour of the `changeFocusModeUser` handler on the `groups`
member of its argument: when `arg.groups` is present its ids are normalized
against the ids of `store.allGroups()` and the normalized result is passed
to `store.filterGroups`; when the requested list was non-empty but
normalizes to the empty list, the "No matching groups found in list of
filtered group IDs" diagnostic is logged and `filterGroups([])` is still
called; when the requested list was empty, `filterGroups([])` is called
with no diagnostic; when `arg.groups` is absent (including `arg` itself
being `undefined`), `filterGroups` is never called at all. -/
theorem changeFocusModeUser_groups_handling (store : Store)
    (arg : Option FocusUser) (gids : List String) :
    (arg.bind FocusUser.groups = some gids →
      Effect.storeFilterGroups
          (normalizeGroupIds gids (store.allGroups.map SidebarGroup.id))
        ∈ changeFocusModeUserEffects store arg) ∧
    (arg.bind FocusUser.groups = some gids → gids ≠ [] →
      normalizeGroupIds gids (store.allGroups.map SidebarGroup.id) = [] →
      Effect.consoleError noMatchingGroupsError
          ∈ changeFocusModeUserEffects store arg ∧
        Effect.storeFilterGroups [] ∈ changeFocusModeUserEffects store arg) ∧
    (arg.bind FocusUser.groups = some [] →
      changeFocusModeUserEffects store arg
        = [Effect.storeChangeFocusModeUser arg,
           Effect.storeFilterGroups []]) ∧
    (arg.bind FocusUser.groups = none →
      changeFocusModeUserEffects store arg
        = [Effect.storeChangeFocusModeUser arg]) := by
  refine ⟨?_, ?_, ?_, ?_⟩
  · intro h
    simp only [changeFocusModeUserEffects, h]
    split
    · simp
    · simp
  · intro h hne hmatch
    simp only [changeFocusModeUserEffects, h]
    rw [if_pos ⟨hne, hmatch⟩, hmatch]
    exact ⟨by simp, by simp⟩
  · intro h
    simp only [changeFocusModeUserEffects, h]
    rw [if_neg (by simp [normalizeGroupIds])]
    rfl
  · intro h
    simp only [changeFocusModeUserEffects, h]

/-- Witness for C6: a store knowing groups `1` and `2` and a request for
groups `["3"]`, which normalizes to nothing: the diagnostic is logged and
the empty filter is still applied. -/
theorem changeFocusModeUser_groups_handling_witness :
    ((some fuGroups3).bind FocusUser.groups = some ["3"]) ∧
    (Effect.consoleError noMatchingGroupsError
        ∈ changeFocusModeUserEffects store12 (some fuGroups3) ∧
      Effect.storeFilterGroups []
        ∈ changeFocusModeUserEffects store12 (some fuGroups3)) :=
  ⟨rfl,
    ((changeFocusModeUser_groups_handling store12 (some fuGroups3)
        ["3"]).2.1 rfl (by decide) (by decide))⟩

theorem post_not_in_handler (store : Store) (arg : Option FocusUser)
    (t : Nat) (o : String) (r : RpcResponse) :
    Effect.post t o r ∉ changeFocusModeUserEffects store arg := by
  unfold changeFocusModeUserEffects
  cases arg.bind FocusUser.groups with
  | none => simp
  | some gids =>
    simp only [List.mem_cons, List.mem_append, List.mem_singleton]
    push_neg
    refine ⟨by simp, ?_, by simp⟩
    split
    · simp
    · simp

/-- C7: every response the command server posts (success or error) is
posted through `event.source`'s message-posting capability, with target
origin exactly `event.origin`, and carries exactly the `id` of the request
it answers. -/
theorem response_target_and_id (store : Store) (settings : Settings)
    (e : MessageEvent) (t : Nat) (o : String) (r : RpcResponse)
    (h : Effect.post t o r ∈ handleMessage store settings e) :
    t = e.source ∧ o = e.origin ∧ r.respId = e.data.reqId := by
  obtain ⟨data, origin, source⟩ := e
  cases data with
  | null => simp [handleMessage] at h
  | obj jsonrpc method id params =>
    simp only [handleMessage] at h
    split at h
    · split at h
      · split at h
        · split at h
          · rcases List.mem_append.1 h with h1 | h2
            · exact absurd h1 (post_not_in_handler _ _ _ _ _)
            · simp only [List.mem_singleton, Effect.post.injEq] at h2
              obtain ⟨h1, h2, h3⟩ := h2
              exact ⟨h1, h2, by rw [h3]; rfl⟩
          · simp only [List.mem_singleton, Effect.post.injEq] at h
            obtain ⟨h1, h2, h3⟩ := h
            exact ⟨h1, h2, by rw [h3]; rfl⟩
        · simp only [List.mem_singleton, Effect.post.injEq] at h
          obtain ⟨h1, h2, h3⟩ := h
          exact ⟨h1, h2, by rw [h3]; rfl⟩
      · simp at h
    · simp at h

/-- Witness for C7: the success response to a `changeFocusModeUser` request
from source frame 3 at `https://allowed1.com` with id 42 goes back to frame
3, at that exact origin, with id 42. -/
theorem response_target_and_id_witness :
    Effect.post 3 "https://allowed1.com"
        (RpcResponse.success "2.0" (some 42) "ok")
      ∈ handleMessage { allGroups := [] }
          { rpcAllowedOrigins := some ["https://allowed1.com"] }
          { data := RpcData.obj (some "2.0")
              (some (some "changeFocusModeUser")) (some 42) none,
            origin := "https://allowed1.com", source := 3 } ∧
    (3 = 3 ∧ "https://allowed1.com" = "https://allowed1.com" ∧
      (RpcResponse.success "2.0" (some 42) "ok").respId
        = (RpcData.obj (some "2.0")
            (some (some "changeFocusModeUser")) (some 42) none).reqId) :=
  ⟨by decide,
    response_target_and_id { allGroups := [] }
      { rpcAllowedOrigins := some ["https://allowed1.com"] }
      { data := RpcData.obj (some "2.0")
          (some (some "changeFocusModeUser")) (some 42) none,
        origin := "https://allowed1.com", source := 3 }
      3 "https://allowed1.com" (RpcResponse.success "2.0" (some 42) "ok")
      (by decide)⟩

/-- C8: destroying the `CrossFrame` plugin destroys the Bridge — every
channel ends up closed and the Bridge delivers no further calls — and stops
Discovery (no broadcasting, no listeners left).  Stopping Discovery by
itself only resets the discovery component: the Bridge, and in particular
every established channel with its connected state, is left untouched.
Bridge destruction is idempotent, so invoking it a second time is safe. -/
theorem crossFrame_destroy_separation (s : CrossFrameState) :
    (CrossFrame.destroy s).bridge.destroyed = true ∧
    (∀ c ∈ (CrossFrame.destroy s).bridge.channels, c.connected = false) ∧
    (∀ m, Bridge.call (CrossFrame.destroy s).bridge m = []) ∧
    (CrossFrame.destroy s).discovery.broadcasting = false ∧
    (CrossFrame.destroy s).discovery.listeners = 0 ∧
    (CrossFrame.destroy s).pluginDestroyed = true ∧
    (CrossFrame.stopDiscoveryOnly s).bridge = s.bridge ∧
    (CrossFrame.stopDiscoveryOnly s).discovery.broadcasting = false ∧
    (CrossFrame.stopDiscoveryOnly s).discovery.listeners = 0 ∧
    Bridge.destroy (Bridge.destroy s.bridge) = Bridge.destroy s.bridge := by
  refine ⟨rfl, ?_, ?_, rfl, rfl, rfl, rfl, rfl, rfl, ?_⟩
  · intro c hc
    simp only [CrossFrame.destroy, Bridge.destroy, List.mem_map] at hc
    obtain ⟨c0, _, hc0⟩ := hc
    rw [← hc0]
    rfl
  · intro m
    simp [Bridge.call, CrossFrame.destroy, Bridge.destroy]
  · simp only [Bridge.destroy, List.map_map, BridgeState.mk.injEq]
    refine ⟨?_, trivial⟩
    apply List.map_congr_left
    intro c _
    rfl
